import Mathlib

/-!
Verification of the vendored `@exortek/express-mongo-sanitize` middleware
(`node_modules/@exortek/express-mongo-sanitize/index.js`).

The development shallowly embeds the sanitizer: JavaScript values become the
inductive type `JValue`, the five global regular expressions of `PATTERNS`
become executable matchers together with their mutable `lastIndex` registers
(`PatState`), and each source function is translated into a Lean function of
the same name (a trailing `S` marks the state-threading version).  Dates,
functions and regular-expression objects are passed through by reference in
the source, so they carry a numeric identity tag here.
-/

namespace MongoSanitize

/-- JavaScript-like values flowing through the sanitizer.  `date`, `func` and
`regexp` carry an identity tag standing for their object reference, since the
sanitizer returns them unchanged (same reference) and `Set` deduplication
compares references for them. -/
inductive JValue where
  | null
  | bool (b : Bool)
  | num (n : Int)
  | str (s : String)
  | date (id : Nat)
  | func (id : Nat)
  | regexp (id : Nat)
  | arr (elems : List JValue)
  | obj (entries : List (String × JValue))

/-- JavaScript truthiness: `false`, `0`, the empty string, `null` and
`undefined` are falsy; every object (arrays, dates, functions, plain objects)
is truthy. -/
def truthy : JValue → Bool
  | .null => false
  | .bool b => b
  | .num n => n != 0
  | .str s => !s.isEmpty
  | .date _ => true
  | .func _ => true
  | .regexp _ => true
  | .arr _ => true
  | .obj _ => true

/-- Source `isString` (line 119). -/
def isString : JValue → Bool
  | .str _ => true
  | _ => false

/-- Source `isPlainObject` (line 137): a non-array, non-date structural
record. -/
def isPlainObject : JValue → Bool
  | .obj _ => true
  | _ => false

/-- Source `isObjectEmpty` (lines 144-147): `false` for non-objects, else
whether the object has no own keys. -/
def isObjectEmpty : JValue → Bool
  | .obj [] => true
  | _ => false

/-- Source `isArray` (line 154). -/
def isArray : JValue → Bool
  | .arr _ => true
  | _ => false

/-- Source `isPrimitive` (line 161): `value == null` (both `null` and
`undefined`), booleans and numbers. -/
def isPrimitive : JValue → Bool
  | .null => true
  | .bool _ => true
  | .num _ => true
  | _ => false

/-- Source `isDate` (line 168). -/
def isDate : JValue → Bool
  | .date _ => true
  | _ => false

/-- Source `isFunction` (line 175). -/
def isFunction : JValue → Bool
  | .func _ => true
  | _ => false

/-! ### The five global patterns (source lines 8-14)

`PATTERNS` is the frozen array
`[/\$/g, /\./g, /[\\\/{}.(*+?|[\]^)]/g, /[\u0000-\u001F\u007F-\u009F]/g,
  /\{\s*\$|\$?\{(.|\r?\n)*\}/g]`.
Each pattern is modelled by a matcher `List Char → Option Nat` giving the
length of the match starting at the head of the list, if any.  Character
literals for brace, backslash and similar characters are written via their
code points. -/

/-- Character class of pattern 1, `/\$/g`. -/
def pat1Class (c : Char) : Bool := c = '$'

/-- Character class of pattern 2, `/\./g`. -/
def pat2Class (c : Char) : Bool := c = '.'

/-- Character class of pattern 3, the class of backslash, slash, braces, dot,
parentheses, star, plus, question mark, pipe, brackets and caret. -/
def pat3Class (c : Char) : Bool :=
  [0x5c, 0x2f, 0x7b, 0x7d, 0x2e, 0x28, 0x2a, 0x2b, 0x3f, 0x7c,
   0x5b, 0x5d, 0x5e, 0x29].contains c.toNat

/-- Character class of pattern 4, the control ranges U+0000-U+001F and
U+007F-U+009F. -/
def pat4Class (c : Char) : Bool :=
  c.toNat ≤ 0x1f || (0x7f ≤ c.toNat && c.toNat ≤ 0x9f)

/-- Matcher for a single-character class: matches one character at the head
position when it belongs to the class. -/
def singleCharMatch (cls : Char → Bool) : List Char → Option Nat
  | c :: _ => if cls c then some 1 else none
  | [] => none

/-- JavaScript whitespace class `\s` (also the set removed by
`String.prototype.trim`). -/
def isJsWhitespace (c : Char) : Bool :=
  let n := c.toNat
  n = 0x20 || n = 0x09 || n = 0x0a || n = 0x0b || n = 0x0c || n = 0x0d ||
  n = 0xa0 || n = 0x1680 || (0x2000 ≤ n && n ≤ 0x200a) ||
  n = 0x2028 || n = 0x2029 || n = 0x202f || n = 0x205f || n = 0x3000 || n = 0xfeff

/-- JavaScript line terminators, the characters not matched by `.`. -/
def isLineTerm (c : Char) : Bool :=
  c.toNat = 0x0a || c.toNat = 0x0d || c.toNat = 0x2028 || c.toNat = 0x2029

/-- For `\s*\$` after an opening brace: the number of whitespace characters
before a dollar sign, when the first non-whitespace character is `$`. -/
def wsThenDollar : List Char → Option Nat
  | [] => none
  | c :: rest =>
    if c = '$' then some 0
    else if isJsWhitespace c then (wsThenDollar rest).map (· + 1)
    else none

/-- First alternative of pattern 5, `\{\s*\$`. -/
def matchAltA : List Char → Option Nat
  | c :: rest =>
    if c.toNat = 0x7b then (wsThenDollar rest).map (· + 2) else none
  | [] => none

/-- Whether `(.|\r?\n)*` can consume exactly this character run: any
character except a line terminator, a lone newline, or a carriage return
followed by a newline. -/
def dotOrNlRun : List Char → Bool
  | [] => true
  | c :: rest =>
    if c.toNat = 0x0d then
      match rest with
      | d :: rest2 => d.toNat = 0x0a && dotOrNlRun rest2
      | [] => false
    else if c.toNat = 0x0a then dotOrNlRun rest
    else !isLineTerm c && dotOrNlRun rest

/-- Greedy search for the closing brace of `(.|\r?\n)*\}`: the longest prefix
consumable by the starred group followed by `}`; returns the total number of
characters consumed including the closing brace. -/
def bodyClose (cs : List Char) : Option Nat :=
  (List.range cs.length).foldl
    (fun best j =>
      if (cs.getD j ' ').toNat = 0x7d && dotOrNlRun (cs.take j) then some (j + 1) else best)
    none

/-- Second alternative of pattern 5, `\$?\{(.|\r?\n)*\}` (the optional dollar
is greedy; if it is taken the next character must still be an opening
brace). -/
def matchAltB : List Char → Option Nat
  | c :: rest =>
    if c = '$' then
      match rest with
      | d :: rest2 => if d.toNat = 0x7b then (bodyClose rest2).map (· + 2) else none
      | [] => none
    else if c.toNat = 0x7b then (bodyClose rest).map (· + 1) else none
  | [] => none

/-- Matcher for pattern 5, `/\{\s*\$|\$?\{(.|\r?\n)*\}/g`: ordered
alternation. -/
def pat5MatchAt (cs : List Char) : Option Nat :=
  match matchAltA cs with
  | some n => some n
  | none => matchAltB cs

def pat1MatchAt : List Char → Option Nat := singleCharMatch pat1Class

def pat2MatchAt : List Char → Option Nat := singleCharMatch pat2Class

def pat3MatchAt : List Char → Option Nat := singleCharMatch pat3Class

def pat4MatchAt : List Char → Option Nat := singleCharMatch pat4Class

/-- End position (exclusive) of the leftmost match at or after `start`, for a
matcher tried at each successive position, as a JavaScript regex engine
does. -/
def firstMatchEnd (matchAt : List Char → Option Nat) (cs : List Char) (start : Nat) :
    Option Nat :=
  (List.range' start (cs.length + 1 - start)).findSome?
    (fun i => (matchAt (cs.drop i)).map (fun n => i + n))

/-- `RegExp.prototype.test` on a regex with the `g` flag: search from
`lastIndex`; on success return `true` and the new `lastIndex` (the match
end), on failure return `false` and reset `lastIndex` to `0`. -/
def regexTestG (matchAt : List Char → Option Nat) (s : String) (lastIndex : Nat) :
    Bool × Nat :=
  let cs := s.toList
  if lastIndex > cs.length then (false, 0)
  else
    match firstMatchEnd matchAt cs lastIndex with
    | some e => (true, e)
    | none => (false, 0)

/-- The mutable `lastIndex` registers of the five frozen global patterns.
`Object.freeze` on the `PATTERNS` array does not freeze the regex objects, so
these registers are process-wide mutable state threaded through every
`pattern.test` call. -/
structure PatState where
  l1 : Nat
  l2 : Nat
  l3 : Nat
  l4 : Nat
  l5 : Nat
deriving DecidableEq

/-- The registers at module load: every `lastIndex` is `0`. -/
def PatState.init : PatState := ⟨0, 0, 0, 0, 0⟩

/-- `patterns.some((pattern) => pattern.test(x))` over the five global
patterns (source lines 280 and 293): short-circuiting, each executed test
updating its own `lastIndex` register. -/
def patternsSomeTest (s : String) (σ : PatState) : Bool × PatState :=
  let (b1, n1) := regexTestG pat1MatchAt s σ.l1
  let σ1 : PatState := { σ with l1 := n1 }
  if b1 then (true, σ1) else
  let (b2, n2) := regexTestG pat2MatchAt s σ1.l2
  let σ2 : PatState := { σ1 with l2 := n2 }
  if b2 then (true, σ2) else
  let (b3, n3) := regexTestG pat3MatchAt s σ2.l3
  let σ3 : PatState := { σ2 with l3 := n3 }
  if b3 then (true, σ3) else
  let (b4, n4) := regexTestG pat4MatchAt s σ3.l4
  let σ4 : PatState := { σ3 with l4 := n4 }
  if b4 then (true, σ4) else
  let (b5, n5) := regexTestG pat5MatchAt s σ4.l5
  let σ5 : PatState := { σ4 with l5 := n5 }
  (b5, σ5)

/-! ### The email regular expression (source lines 126-130)

The anchored, case-insensitive pattern recognizes `local@domain` where the
local part is a dot-atom or a quoted string and the domain is a hostname of
at least two labels or a bracketed IP literal.  Membership in the regex
language is decided by trying every split at an `@`. -/

def isDigitChar (c : Char) : Bool := 0x30 ≤ c.toNat && c.toNat ≤ 0x39

/-- ASCII letter, case-insensitive (`a-z` under the `i` flag). -/
def isAlphaCI (c : Char) : Bool :=
  (0x41 ≤ c.toNat && c.toNat ≤ 0x5a) || (0x61 ≤ c.toNat && c.toNat ≤ 0x7a)

def emailAlnum (c : Char) : Bool := isAlphaCI c || isDigitChar c

/-- The dot-atom character class of the local part. -/
def emailAtomChar (c : Char) : Bool :=
  isAlphaCI c || isDigitChar c ||
  [0x21, 0x23, 0x24, 0x25, 0x26, 0x27, 0x2a, 0x2b, 0x2f, 0x3d, 0x3f,
   0x5e, 0x5f, 0x60, 0x7b, 0x7c, 0x7d, 0x7e, 0x2d].contains c.toNat

/-- Split a character list at every separator character, keeping empty
segments, as `String.prototype.split` does. -/
def splitOnPred (p : Char → Bool) : List Char → List (List Char)
  | [] => [[]]
  | c :: rest =>
    let r := splitOnPred p rest
    if p c then [] :: r
    else
      match r with
      | seg :: segs => (c :: seg) :: segs
      | [] => [[c]]

def splitOnChar (sep : Char) : List Char → List (List Char) :=
  splitOnPred (fun c => c = sep)

/-- Local part as a dot-atom: atoms of atom characters separated by single
dots, no leading, trailing or doubled dot. -/
def emailDotAtomOk (cs : List Char) : Bool :=
  (splitOnChar '.' cs).all (fun seg => !seg.isEmpty && seg.all emailAtomChar)

/-- Quoted-string text characters. -/
def emailQtextChar (c : Char) : Bool :=
  let n := c.toNat
  (0x01 ≤ n && n ≤ 0x08) || n = 0x0b || n = 0x0c || (0x0e ≤ n && n ≤ 0x1f) ||
  n = 0x21 || (0x23 ≤ n && n ≤ 0x5b) || (0x5d ≤ n && n ≤ 0x7f)

/-- Characters allowed after a backslash escape inside a quoted string. -/
def emailEscChar (c : Char) : Bool :=
  let n := c.toNat
  (0x01 ≤ n && n ≤ 0x09) || n = 0x0b || n = 0x0c || (0x0e ≤ n && n ≤ 0x7f)

/-- Interior of a quoted string: a run of text characters and backslash
escapes (the backslash itself is not a text character, so parsing is
deterministic). -/
def emailQuotedBody : List Char → Bool
  | [] => true
  | [c] => emailQtextChar c
  | c :: d :: rest =>
    if c.toNat = 0x5c then emailEscChar d && emailQuotedBody rest
    else emailQtextChar c && emailQuotedBody (d :: rest)

/-- Local part as a quoted string: double quote, interior, double quote. -/
def emailQuotedOk (cs : List Char) : Bool :=
  match cs with
  | c :: rest =>
    match rest.getLast? with
    | some d => c.toNat = 0x22 && d.toNat = 0x22 && emailQuotedBody rest.dropLast
    | none => false
  | [] => false

def emailLocalOk (cs : List Char) : Bool := emailDotAtomOk cs || emailQuotedOk cs

/-- One hostname label: `[a-z0-9]([a-z0-9-]*[a-z0-9])?` case-insensitive. -/
def emailLabelOk (cs : List Char) : Bool :=
  match cs with
  | [] => false
  | [c] => emailAlnum c
  | c :: rest =>
    match rest.getLast? with
    | some d =>
      emailAlnum c && emailAlnum d &&
      rest.dropLast.all (fun x => emailAlnum x || x.toNat = 0x2d)
    | none => false

/-- Hostname domain: `(label\.)+label`, so at least two dot-separated valid
labels. -/
def emailHostnameOk (cs : List Char) : Bool :=
  let segs := splitOnChar '.' cs
  segs.length ≥ 2 && segs.all emailLabelOk

/-- One IPv4 octet alternative: `25[0-5]|2[0-4][0-9]|[01]?[0-9][0-9]?`. -/
def emailOctetOk (cs : List Char) : Bool :=
  cs.all isDigitChar &&
  (match cs with
   | [_] => true
   | [_, _] => true
   | [a, b, c] =>
     (a = '2' && b = '5' && c.toNat ≤ 0x35) ||
     (a = '2' && b.toNat ≤ 0x34) ||
     a = '0' || a = '1'
   | _ => false)

/-- Split at the first character satisfying `p`, returning the parts before
and after it. -/
def splitFirst (p : Char → Bool) : List Char → Option (List Char × List Char)
  | [] => none
  | c :: rest =>
    if p c then some ([], rest)
    else (splitFirst p rest).map (fun pr => (c :: pr.1, pr.2))

/-- Character class of the final alternative inside an IP literal. -/
def emailIpTailChar (c : Char) : Bool :=
  let n := c.toNat
  (0x01 ≤ n && n ≤ 0x08) || n = 0x0b || n = 0x0c || (0x0e ≤ n && n ≤ 0x1f) ||
  (0x21 ≤ n && n ≤ 0x5a) || (0x53 ≤ n && n ≤ 0x7f)

/-- Whether the tail after the colon can be segmented into allowed characters
and backslash escapes (regex existence semantics: either reading works). -/
def emailIpTailRun : List Char → Bool
  | [] => true
  | [c] => emailIpTailChar c
  | c :: d :: rest =>
    (emailIpTailChar c && emailIpTailRun (d :: rest)) ||
    (c.toNat = 0x5c && emailEscChar d && emailIpTailRun rest)

/-- The name before the colon in the final IP-literal alternative:
`[a-z0-9-]*[a-z0-9]` case-insensitive. -/
def emailLastAltNameOk (cs : List Char) : Bool :=
  match cs.getLast? with
  | some d => emailAlnum d && cs.all (fun x => emailAlnum x || x.toNat = 0x2d)
  | none => false

/-- The final alternative of an IP literal:
`[a-z0-9-]*[a-z0-9]:(chars|escapes)+`.  The name cannot contain a colon, so
the split is at the first colon. -/
def emailLastAltOk (cs : List Char) : Bool :=
  match splitFirst (fun c => c.toNat = 0x3a) cs with
  | some (name, tail) => emailLastAltNameOk name && !tail.isEmpty && emailIpTailRun tail
  | none => false

/-- Bracketed IP literal domain: `\[(octet\.){3}(octet|lastAlt)\]`.  Octets
contain only digits, so the first three groups end exactly at the first three
dots of the interior. -/
def emailIpLiteralOk (cs : List Char) : Bool :=
  match cs with
  | c :: rest =>
    (match rest.getLast? with
     | some d =>
       c.toNat = 0x5b && d.toNat = 0x5d &&
       (let body := rest.dropLast
        match splitFirst (fun x => x = '.') body with
        | some (o1, r1) =>
          emailOctetOk o1 &&
          (match splitFirst (fun x => x = '.') r1 with
           | some (o2, r2) =>
             emailOctetOk o2 &&
             (match splitFirst (fun x => x = '.') r2 with
              | some (o3, r3) => emailOctetOk o3 && (emailOctetOk r3 || emailLastAltOk r3)
              | none => false)
           | none => false)
        | none => false)
     | none => false)
  | [] => false

def emailDomainOk (cs : List Char) : Bool := emailHostnameOk cs || emailIpLiteralOk cs

/-- The anchored email regex on a string: some `@` splits it into a valid
local part and a valid domain. -/
def isEmailStr (s : String) : Bool :=
  let cs := s.toList
  (List.range cs.length).any (fun i =>
    cs.getD i ' ' = '@' && emailLocalOk (cs.take i) && emailDomainOk (cs.drop (i + 1)))

/-- Source `isEmail` (lines 126-130): a string value matching the email
regex. -/
def isEmail : JValue → Bool
  | .str s => isEmailStr s
  | _ => false

/-! ### The combined substitution pattern of `sanitizeString`

`sanitizeString` builds
`new RegExp(patterns.map((pattern) => pattern.source).join('|'), 'g')`
(source line 220): a fresh regex, so no `lastIndex` state survives a call.
The alternation tries the five sources in order at each position. -/

/-- One attempt of the combined alternation at a position. -/
def combinedMatchAt (cs : List Char) : Option Nat :=
  match pat1MatchAt cs with
  | some n => some n
  | none =>
    match pat2MatchAt cs with
    | some n => some n
    | none =>
      match pat3MatchAt cs with
      | some n => some n
      | none =>
        match pat4MatchAt cs with
        | some n => some n
        | none => pat5MatchAt cs

/-- The characters matched by the combined alternation.  Every match of the
combined pattern has length one: the fifth pattern only starts with a dollar
or an opening brace, and those are already taken by the first and third
alternatives. -/
def isDangerChar (c : Char) : Bool :=
  pat1Class c || pat2Class c || pat3Class c || pat4Class c

/-- `str.replace(combinedPattern, replaceWith)` with the `g` flag: scan left
to right, replace each match and continue after it.  The scan is driven by a
fuel counter bounding the number of positions visited; every match consumes
at least one character, so fuel equal to the length of the list (supplied by
`replaceCombined`) is always sufficient. -/
def replaceCombinedF (fuel : Nat) (replaceWith : String) (cs : List Char) : List Char :=
  match fuel, cs with
  | 0, rest => rest
  | _ + 1, [] => []
  | fuel + 1, c :: cs =>
    match combinedMatchAt (c :: cs) with
    | some n => replaceWith.toList ++ replaceCombinedF fuel replaceWith (cs.drop (n - 1))
    | none => c :: replaceCombinedF fuel replaceWith cs

def replaceCombined (replaceWith : String) (cs : List Char) : List Char :=
  replaceCombinedF cs.length replaceWith cs

/-- `String.prototype.trim`: strip JavaScript whitespace from both ends. -/
def trimJS (cs : List Char) : List Char :=
  ((cs.dropWhile isJsWhitespace).reverse.dropWhile isJsWhitespace).reverse

/-- `String.prototype.slice(0, stop)`: a negative stop counts from the
end. -/
def jsSliceTo (cs : List Char) (stop : Int) : List Char :=
  let len : Int := cs.length
  let e := if stop < 0 then max (len + stop) 0 else min stop len
  cs.take e.toNat

/-- The `stringOptions` sub-configuration: `{trim, lowercase, maxLength}`
with `maxLength` either `null` or a number. -/
structure StringOptions where
  trim : Bool
  lowercase : Bool
  maxLength : Option Int
deriving DecidableEq

/-- JavaScript truthiness of the `maxLength` option (`null` and `0` are
falsy). -/
def maxLengthTruthy : Option Int → Bool
  | none => false
  | some n => n != 0

/-- The `arrayOptions` sub-configuration: `{filterNull, distinct}`. -/
structure ArrayOptions where
  filterNull : Bool
  distinct : Bool
deriving DecidableEq

/-- Source `sanitizeString` (lines 213-230) on the string payload: return a
valid email unchanged, otherwise run the single combined substitution pass,
then trim, lowercase and (for values only) truncate as configured.  The
non-string early return lives at the dispatch sites. -/
def sanitizeStringCore (s : String) (replaceWith : String) (so : StringOptions)
    (isValue : Bool) : String :=
  if isEmailStr s then s
  else
    let r1 := replaceCombined replaceWith s.toList
    let r2 := if so.trim then trimJS r1 else r1
    let r3 := if so.lowercase then r2.map Char.toLower else r2
    let r4 :=
      if maxLengthTruthy so.maxLength && isValue then jsSliceTo r3 (so.maxLength.getD 0)
      else r3
    String.mk r4

/-- The middleware operating mode. -/
inductive Mode where
  | auto
  | manual
deriving DecidableEq

/-- The resolved configuration closed over by the middleware (source lines
421-427), minus three components that are modelled separately: `mode` is read
only by the middleware wrapper and is passed alongside; `patterns` is fixed
to the default `PATTERNS` array (no claim configures custom patterns); the
`debug` sub-configuration only drives logging, which never affects control
flow or results.  `skipRoutes`, `allowedKeys` and `deniedKeys` are `Set`s in
the source; lists with membership tests model them.  `customSanitizer`
receives the snapshot (its second source argument is the ambient
configuration itself). -/
structure Config where
  replaceWith : String
  removeMatches : Bool
  sanitizeObjects : List String
  skipRoutes : List String
  customSanitizer : Option (JValue → JValue)
  recursive : Bool
  removeEmpty : Bool
  allowedKeys : List String
  deniedKeys : List String
  stringOptions : StringOptions
  arrayOptions : ArrayOptions

/-- The resolved configuration produced by `expressMongoSanitize({})`: every
field at its default. -/
def defaultConfig : Config where
  replaceWith := ""
  removeMatches := false
  sanitizeObjects := ["body", "query"]
  skipRoutes := []
  customSanitizer := none
  recursive := true
  removeEmpty := false
  allowedKeys := []
  deniedKeys := []
  stringOptions := { trim := false, lowercase := false, maxLength := none }
  arrayOptions := { filterNull := false, distinct := false }

/-! ### The recursive sanitizer (source lines 239-315)

`sanitizeValue` dispatches on the classified shape; `sanitizeArray` and
`sanitizeObject` recurse back into it.  The `type_error` throws of
`sanitizeArray`/`sanitizeObject` are unreachable from the dispatcher (their
only caller), so the embedding dispatches on the constructor directly.  The
`PatState` register file is threaded through because `removeMatches` runs
`pattern.test` on the five global regexes.  The suffix `S` marks the
state-threading translation. -/

/-- The string payload of a string value (used only under an `isString`
guard, mirroring the short-circuit `isString(val) && patterns.some(...)`). -/
def strVal : JValue → String
  | .str s => s
  | _ => ""

/-- `acc[sanitizedKey] = value` on a JavaScript object: overwrite in place if
the key exists (keeping its position), else append. -/
def insertAssoc : List (String × JValue) → String → JValue → List (String × JValue)
  | [], k, v => [(k, v)]
  | (k1, v1) :: rest, k, v =>
    if k1 = k then (k, v) :: rest else (k1, v1) :: insertAssoc rest k v

/-- `SameValueZero`, the identity used by `Set`, restricted to the elements
this code deduplicates: the deduplicated list is the output of a fresh
`map`, so array and object elements are fresh references and are never
identified, while dates and functions keep the identity of the input
(tracked by their tag). -/
def sameValueZero : JValue → JValue → Bool
  | .null, .null => true
  | .bool a, .bool b => a = b
  | .num a, .num b => a = b
  | .str a, .str b => a = b
  | .date i, .date j => i = j
  | .func i, .func j => i = j
  | .regexp i, .regexp j => i = j
  | _, _ => false

/-- `[...new Set(result)]`: keep the first occurrence of each element under
`SameValueZero`. -/
def dedupJS (xs : List JValue) : List JValue :=
  xs.foldl (fun acc x => if acc.any (sameValueZero x) then acc else acc ++ [x]) []

/-- The per-entry key/value policy of `sanitizeObject` (source lines
275-296), up to but not including the recursive value sanitization: either
the pair is dropped, or an email value under a denied key is kept verbatim,
or sanitization of the value proceeds under the sanitized key.  Each
outcome carries the pattern registers after the `removeMatches` tests. -/
inductive EntryDecision where
  | drop (σ1 : PatState)
  | keepEmail (sk : String) (σ1 : PatState)
  | sanitize (sk : String) (σ1 : PatState)

def entryDecision (c : Config) (k : String) (v : JValue) (σ : PatState) : EntryDecision :=
  if (!c.allowedKeys.isEmpty && !c.allowedKeys.contains k) || c.deniedKeys.contains k then
    .drop σ
  else
    let sk := sanitizeStringCore k c.replaceWith c.stringOptions false
    let keyTest := if c.removeMatches then patternsSomeTest k σ else (false, σ)
    let σ1 := keyTest.2
    if keyTest.1 then .drop σ1
    else if c.removeEmpty && sk.isEmpty then .drop σ1
    else if isEmail v && c.deniedKeys.contains k then .keepEmail sk σ1
    else
      let valTest :=
        if c.removeMatches && isString v then patternsSomeTest (strVal v) σ1
        else (false, σ1)
      if valTest.1 then .drop valTest.2
      else .sanitize sk valTest.2

mutual

/-- Source `sanitizeValue` (lines 310-315): the guard
`!value || isPrimitive(value) || isDate(value)` returns falsy values,
primitives and dates unchanged; arrays and plain objects recurse (the
shaping tails of `sanitizeArray`/`sanitizeObject` are inlined); strings go
through the string sanitizer; anything else passes through.  The guard is
evaluated per constructor: every constructor except a non-empty string, an
array or a plain object is returned unchanged (for a string, `!value` is
exactly emptiness). -/
def sanitizeValueS : JValue → Config → Bool → PatState → JValue × PatState
  | .null, _, _, σ => (.null, σ)
  | .bool b, _, _, σ => (.bool b, σ)
  | .num n, _, _, σ => (.num n, σ)
  | .date i, _, _, σ => (.date i, σ)
  | .func i, _, _, σ => (.func i, σ)
  | .regexp i, _, _, σ => (.regexp i, σ)
  | .str s, c, isValue, σ =>
    if s.isEmpty then (.str s, σ)
    else (.str (sanitizeStringCore s c.replaceWith c.stringOptions isValue), σ)
  | .arr xs, c, _, σ =>
    let r := sanitizeListS xs c σ
    let ys1 := if c.arrayOptions.filterNull then r.1.filter truthy else r.1
    let ys2 := if c.arrayOptions.distinct then dedupJS ys1 else ys1
    (.arr ys2, r.2)
  | .obj kvs, c, _, σ =>
    let r := sanitizeEntriesS kvs c σ []
    (.obj r.1, r.2)

/-- `arr.map((item) => sanitizeValue(item, options, true))` (source line
246), threading the pattern registers left to right. -/
def sanitizeListS : List JValue → Config → PatState → List JValue × PatState
  | [], _, σ => ([], σ)
  | x :: rest, c, σ =>
    let r1 := sanitizeValueS x c true σ
    let r2 := sanitizeListS rest c r1.2
    (r1.1 :: r2.1, r2.2)

/-- The `Object.entries(obj).reduce` of `sanitizeObject` (source lines
274-300) with accumulator `acc`: apply the entry policy, then sanitize the
kept value with the value flag set and insert it unless `removeEmpty`
discards a falsy result. -/
def sanitizeEntriesS : List (String × JValue) → Config → PatState →
    List (String × JValue) → List (String × JValue) × PatState
  | [], _, σ, acc => (acc, σ)
  | (k, v) :: rest, c, σ, acc =>
    match entryDecision c k v σ with
    | .drop σ1 => sanitizeEntriesS rest c σ1 acc
    | .keepEmail sk σ1 => sanitizeEntriesS rest c σ1 (insertAssoc acc sk v)
    | .sanitize sk σ1 =>
      let r := sanitizeValueS v c true σ1
      if !c.removeEmpty || truthy r.1 then
        sanitizeEntriesS rest c r.2 (insertAssoc acc sk r.1)
      else sanitizeEntriesS rest c r.2 acc

end

/-- One invocation of the dispatcher on a fresh process (every `lastIndex`
register still `0`), projecting the sanitized value. -/
def sanitizeValue (v : JValue) (c : Config) (isValue : Bool) : JValue :=
  (sanitizeValueS v c isValue PatState.init).1

/-! ### The state-erased sanitizer

When `removeMatches` is disabled the sanitizer never executes
`pattern.test`, so the registers are neither read nor written.  The `P`
functions are that projection of the `S` functions; the bridge lemmas below
prove `sanitizeValueS v c iv σ = (sanitizeValueP v c iv, σ)` whenever
`c.removeMatches = false`. -/

/-- The entry policy outcome without registers. -/
inductive EntryDecisionP where
  | drop
  | keepEmail (sk : String)
  | sanitize (sk : String)

/-- `entryDecision` for configurations with `removeMatches` disabled: the
two pattern tests are constantly false. -/
def entryDecisionP (c : Config) (k : String) (v : JValue) : EntryDecisionP :=
  if (!c.allowedKeys.isEmpty && !c.allowedKeys.contains k) || c.deniedKeys.contains k then
    .drop
  else
    let sk := sanitizeStringCore k c.replaceWith c.stringOptions false
    if c.removeEmpty && sk.isEmpty then .drop
    else if isEmail v && c.deniedKeys.contains k then .keepEmail sk
    else .sanitize sk

mutual

/-- State-erased `sanitizeValueS`. -/
def sanitizeValueP : JValue → Config → Bool → JValue
  | .null, _, _ => .null
  | .bool b, _, _ => .bool b
  | .num n, _, _ => .num n
  | .date i, _, _ => .date i
  | .func i, _, _ => .func i
  | .regexp i, _, _ => .regexp i
  | .str s, c, isValue =>
    if s.isEmpty then .str s
    else .str (sanitizeStringCore s c.replaceWith c.stringOptions isValue)
  | .arr xs, c, _ =>
    let ys := sanitizeListP xs c
    let ys1 := if c.arrayOptions.filterNull then ys.filter truthy else ys
    let ys2 := if c.arrayOptions.distinct then dedupJS ys1 else ys1
    .arr ys2
  | .obj kvs, c, _ => .obj (sanitizeEntriesP kvs c [])

/-- State-erased `sanitizeListS`. -/
def sanitizeListP : List JValue → Config → List JValue
  | [], _ => []
  | x :: rest, c => sanitizeValueP x c true :: sanitizeListP rest c

/-- State-erased `sanitizeEntriesS`. -/
def sanitizeEntriesP : List (String × JValue) → Config → List (String × JValue) →
    List (String × JValue)
  | [], _, acc => acc
  | (k, v) :: rest, c, acc =>
    match entryDecisionP c k v with
    | .drop => sanitizeEntriesP rest c acc
    | .keepEmail sk => sanitizeEntriesP rest c (insertAssoc acc sk v)
    | .sanitize sk =>
      let sv := sanitizeValueP v c true
      if !c.removeEmpty || truthy sv then sanitizeEntriesP rest c (insertAssoc acc sk sv)
      else sanitizeEntriesP rest c acc

end

/-! ### The request adapter and middleware (source lines 351-451) -/

/-- One named binding on the request (`body`, `query`, ...).  `writable`
models `isWritable` (source lines 351-359): whether the own-or-inherited
property descriptor allows direct assignment. -/
structure SectionBinding where
  value : JValue
  writable : Bool

/-- The request object as the middleware sees it: its named sections and its
path (`req.path || req.url`).  The `req.sanitize` capability attached in
manual mode is modelled as a separate output of the middleware. -/
structure Request where
  sections : List (String × SectionBinding)
  path : String

def lookupSection : List (String × SectionBinding) → String → Option SectionBinding
  | [], _ => none
  | (n, b) :: rest, name => if n = name then some b else lookupSection rest name

def setSectionValue : List (String × SectionBinding) → String → SectionBinding →
    List (String × SectionBinding)
  | [], _, _ => []
  | (n, b) :: rest, name, nb =>
    if n = name then (n, nb) :: rest else (n, b) :: setSectionValue rest name nb

/-- `Object.assign(Array.isArray(x) ? [] : {}, x)` (source line 373): a
shallow copy preserving array-versus-object shape.  For a string it copies
the index properties into a plain object; for primitives, dates and
functions it produces an empty object (no own enumerable properties). -/
def snapshot : JValue → JValue
  | .obj kvs => .obj kvs
  | .arr xs => .arr xs
  | .str s => .obj ((s.toList.enum).map (fun p => (toString p.1, JValue.str (String.mk [p.2]))))
  | _ => .obj []

/-- The per-section body of `handleRequest` (source lines 369-394): skip a
missing, falsy or empty-object section; otherwise snapshot, sanitize (with
the custom sanitizer when configured, which bypasses the pattern registers),
and write back — directly when the binding is writable, via
`Object.defineProperty` (fresh writable descriptor) only when the section is
exactly `query` and its current value is a plain object, and not at all
otherwise. -/
def handleSection (c : Config) (req : Request) (name : String) (σ : PatState) :
    Request × PatState :=
  match lookupSection req.sections name with
  | none => (req, σ)
  | some sec =>
    if truthy sec.value && !isObjectEmpty sec.value then
      let snap := snapshot sec.value
      let r :=
        match c.customSanitizer with
        | some f => (f snap, σ)
        | none => sanitizeValueS snap c false σ
      if sec.writable then
        ({ req with sections := setSectionValue req.sections name { sec with value := r.1 } }, r.2)
      else if isPlainObject sec.value && name = "query" then
        ({ req with sections := setSectionValue req.sections name { value := r.1, writable := true } }, r.2)
      else (req, r.2)
    else (req, σ)

/-- Source `handleRequest` (lines 366-395): fold the per-section body over
the configured section names. -/
def handleRequestS (req : Request) (c : Config) (σ : PatState) : Request × PatState :=
  c.sanitizeObjects.foldl (fun acc name => handleSection c acc.1 name acc.2) (req, σ)

/-- Strip the leading and trailing runs of slashes. -/
def trimSlashes (s : String) : String :=
  String.mk (((s.toList.dropWhile (· = '/')).reverse.dropWhile (· = '/')).reverse)

/-- Source `cleanUrl` (lines 402-407): `null` for the empty string (the
non-string guard is covered by typing), else drop everything from the first
`?` or `#`, strip outer slashes and restore a single leading slash; an empty
remainder normalizes to `/`. -/
def cleanUrl (url : String) : Option String :=
  if url.isEmpty then none
  else
    let path := String.mk ((splitOnPred (fun ch => ch = '?' || ch = '#') url.toList).headD [])
    let trimmed := trimSlashes path
    some (if trimmed.isEmpty then "/" else "/" ++ trimmed)

/-- The skip check of the middleware (source line 432): some configured skip
route cleans to the same canonical path as the request path. -/
def shouldSkip (c : Config) (req : Request) : Bool :=
  let cleanedRequestPath := cleanUrl req.path
  c.skipRoutes.any (fun skipPath => cleanUrl skipPath == cleanedRequestPath)

/-- The middleware result: the request passed to `next`, whether a
`req.sanitize` callable was attached (manual mode), and the pattern
registers after the invocation.  Invoking the attached callable with no
override options is exactly `handleRequestS` with the base configuration
(source lines 444-447: `{ ...opts, ...customOpts }` with `customOpts`
undefined is `opts`). -/
structure MwResult where
  req : Request
  sanitizeAttached : Bool
  state : PatState

/-- The request handler returned by `expressMongoSanitize` (source lines
429-450): skip exactly-matching routes entirely; in auto mode run the
adapter; in manual mode attach the sanitize callable instead; always
continue to `next`. -/
def middlewareS (mode : Mode) (c : Config) (req : Request) (σ : PatState) : MwResult :=
  if shouldSkip c req then ⟨req, false, σ⟩
  else
    let r := if mode = Mode.auto then handleRequestS req c σ else (req, σ)
    if mode = Mode.manual then ⟨r.1, true, r.2⟩ else ⟨r.1, false, r.2⟩

/-! ### Option validation (source lines 322-343 and 415-427)

`expressMongoSanitize` merges the user options over `DEFAULT_OPTIONS` field
by field and validates the merged record before any request is processed.
The raw option values are arbitrary JavaScript values, so this layer works
on `JValue` fields; the five default patterns appear as regex objects. -/

/-- A partial user configuration: `none` means the field was omitted. -/
structure RawOptions where
  replaceWith : Option JValue := none
  removeMatches : Option JValue := none
  sanitizeObjects : Option JValue := none
  mode : Option JValue := none
  skipRoutes : Option JValue := none
  customSanitizer : Option JValue := none
  recursive : Option JValue := none
  removeEmpty : Option JValue := none
  patterns : Option JValue := none
  allowedKeys : Option JValue := none
  deniedKeys : Option JValue := none
  stringOptions : Option JValue := none
  arrayOptions : Option JValue := none

/-- The merged record `{ ...DEFAULT_OPTIONS, ...options }` (source line
418). -/
structure MergedOptions where
  replaceWith : JValue
  removeMatches : JValue
  sanitizeObjects : JValue
  mode : JValue
  skipRoutes : JValue
  customSanitizer : JValue
  recursive : JValue
  removeEmpty : JValue
  patterns : JValue
  allowedKeys : JValue
  deniedKeys : JValue
  stringOptions : JValue
  arrayOptions : JValue

/-- `DEFAULT_OPTIONS` (source lines 34-60) as raw JavaScript values (the
`debug` sub-object is not validated and only drives logging). -/
def mergeOptions (o : RawOptions) : MergedOptions where
  replaceWith := o.replaceWith.getD (.str "")
  removeMatches := o.removeMatches.getD (.bool false)
  sanitizeObjects := o.sanitizeObjects.getD (.arr [.str "body", .str "query"])
  mode := o.mode.getD (.str "auto")
  skipRoutes := o.skipRoutes.getD (.arr [])
  customSanitizer := o.customSanitizer.getD .null
  recursive := o.recursive.getD (.bool true)
  removeEmpty := o.removeEmpty.getD (.bool false)
  patterns := o.patterns.getD (.arr [.regexp 0, .regexp 1, .regexp 2, .regexp 3, .regexp 4])
  allowedKeys := o.allowedKeys.getD (.arr [])
  deniedKeys := o.deniedKeys.getD (.arr [])
  stringOptions := o.stringOptions.getD
    (.obj [("trim", .bool false), ("lowercase", .bool false), ("maxLength", .null)])
  arrayOptions := o.arrayOptions.getD
    (.obj [("filterNull", .bool false), ("distinct", .bool false)])

/-- The error thrown by `validateOptions`: the offending field, its value
and the error type tag. -/
structure ConfigError where
  key : String
  value : JValue
  kind : String

/-- `['auto', 'manual'].includes(value)`. -/
def modeValueOk : JValue → Bool
  | .str s => s = "auto" || s = "manual"
  | _ => false

/-- `value === null`. -/
def isNullJ : JValue → Bool
  | .null => true
  | _ => false

/-- One step of the source `validateOptions` loop
`for (const [key, validate] of Object.entries(validators))` (lines 338-342):
walk the table in declaration order and throw a `type_error` naming the first
failing field and its value. -/
def validateList : List (String × JValue × Bool) → Except ConfigError Unit
  | [] => .ok ()
  | (key, value, ok) :: rest =>
    if ok then validateList rest
    else .error ⟨key, value, "type_error"⟩

/-- The `validators` table (source lines 323-337) evaluated on the merged
options: each recognized field with its value and the outcome of its
predicate.  Note that `removeMatches`, `recursive` and `removeEmpty` are
checked with `isPrimitive` (null, boolean or number), not with a boolean
check. -/
def validators (m : MergedOptions) : List (String × JValue × Bool) :=
  [("replaceWith", m.replaceWith, isString m.replaceWith),
   ("removeMatches", m.removeMatches, isPrimitive m.removeMatches),
   ("sanitizeObjects", m.sanitizeObjects, isArray m.sanitizeObjects),
   ("mode", m.mode, modeValueOk m.mode),
   ("skipRoutes", m.skipRoutes, isArray m.skipRoutes),
   ("customSanitizer", m.customSanitizer,
     isNullJ m.customSanitizer || isFunction m.customSanitizer),
   ("recursive", m.recursive, isPrimitive m.recursive),
   ("removeEmpty", m.removeEmpty, isPrimitive m.removeEmpty),
   ("patterns", m.patterns, isArray m.patterns),
   ("allowedKeys", m.allowedKeys, isNullJ m.allowedKeys || isArray m.allowedKeys),
   ("deniedKeys", m.deniedKeys, isNullJ m.deniedKeys || isArray m.deniedKeys),
   ("stringOptions", m.stringOptions, isPlainObject m.stringOptions),
   ("arrayOptions", m.arrayOptions, isPlainObject m.arrayOptions)]

/-- Source `validateOptions` (lines 322-343). -/
def validateOptions (m : MergedOptions) : Except ConfigError Unit :=
  validateList (validators m)

/-- The synchronous validation performed by `expressMongoSanitize(options)`
before the middleware function is returned (source lines 415-419): merge
over the defaults, then validate. -/
def expressMongoSanitizeCheck (o : RawOptions) : Except ConfigError Unit :=
  validateOptions (mergeOptions o)

/-- Left fold of `insertAssoc` over a list of processed entries (the shape of
the object reduce once every entry reaches the insertion step). -/
def foldInsert (acc : List (String × JValue)) : List (String × JValue) → List (String × JValue)
  | [] => acc
  | (k, v) :: rest => foldInsert (insertAssoc acc k v) rest

/-- The image of an entry list under the default per-entry processing:
sanitize the key as a key and the value as a value. -/
def defaultEntryImage (kvs : List (String × JValue)) : List (String × JValue) :=
  kvs.map (fun p =>
    (sanitizeStringCore p.1 defaultConfig.replaceWith defaultConfig.stringOptions false,
     sanitizeValueP p.2 defaultConfig true))

/-- A request with a writable `body` section holding `{a: "$"}`, used by the
concrete examples. -/
def reqBodyWritable : Request :=
  ⟨[("body", ⟨.obj [("a", .str "$")], true⟩)], "/x"⟩

/-- The same request with a non-writable `body` binding. -/
def reqBodyReadOnly : Request :=
  ⟨[("body", ⟨.obj [("a", .str "$")], false⟩)], "/x"⟩

/-! ### Characterization of the combined substitution pattern -/

theorem pat5MatchAt_cons_none (c : Char) (cs : List Char) (h1 : ¬c = '$')
    (h2 : ¬c.toNat = 0x7b) : pat5MatchAt (c :: cs) = none := by
  unfold pat5MatchAt matchAltA matchAltB
  simp [h1, h2]

/-- Every match of the combined alternation is a single dangerous character:
the fifth pattern can only start with a dollar or an opening brace, both
already matched by the first and third alternatives. -/
theorem combinedMatchAt_cons (c : Char) (cs : List Char) :
    combinedMatchAt (c :: cs) = if isDangerChar c then some 1 else none := by
  unfold combinedMatchAt pat1MatchAt pat2MatchAt pat3MatchAt pat4MatchAt singleCharMatch
      isDangerChar
  by_cases h1 : pat1Class c = true
  · simp [h1]
  · by_cases h2 : pat2Class c = true
    · simp [h1, h2]
    · by_cases h3 : pat3Class c = true
      · simp [h1, h2, h3]
      · by_cases h4 : pat4Class c = true
        · simp [h1, h2, h3, h4]
        · have hd : ¬c = '$' := by
            intro hc
            exact h1 (by simp [pat1Class, hc])
          have hb : ¬c.toNat = 0x7b := by
            intro hc
            exact h3 (by simp [pat3Class, hc])
          simp [h1, h2, h3, h4, pat5MatchAt_cons_none c cs hd hb]

theorem replaceCombinedF_empty (fuel : Nat) (cs : List Char) (h : cs.length ≤ fuel) :
    replaceCombinedF fuel "" cs = cs.filter (fun c => !isDangerChar c) := by
  induction fuel generalizing cs with
  | zero =>
    cases cs with
    | nil => simp [replaceCombinedF]
    | cons c rest => simp at h
  | succ fuel ih =>
    cases cs with
    | nil => simp [replaceCombinedF]
    | cons c rest =>
      rw [replaceCombinedF, combinedMatchAt_cons]
      by_cases hc : isDangerChar c = true
      · simp only [hc, if_true]
        simp only [List.filter_cons, hc]
        simp [ih rest (by simp at h; omega)]
      · simp only [hc, if_false]
        simp only [List.filter_cons]
        simp [hc, ih rest (by simp at h; omega)]

theorem replaceCombined_empty (cs : List Char) :
    replaceCombined "" cs = cs.filter (fun c => !isDangerChar c) :=
  replaceCombinedF_empty cs.length cs (Nat.le_refl _)

/-- The string sanitizer under the default configuration: an email passes
through, anything else keeps exactly its non-dangerous characters. -/
theorem sanitizeStringCore_default (s : String) (iv : Bool) :
    sanitizeStringCore s defaultConfig.replaceWith defaultConfig.stringOptions iv =
      if isEmailStr s then s else String.mk (s.toList.filter (fun c => !isDangerChar c)) := by
  unfold sanitizeStringCore defaultConfig
  by_cases h : isEmailStr s = true
  · simp [h]
  · simp [h, maxLengthTruthy, replaceCombined_empty]

/-! ### State erasure for configurations with `removeMatches` disabled -/

theorem entryDecision_noRM (c : Config) (k : String) (v : JValue) (σ : PatState)
    (h : c.removeMatches = false) :
    entryDecision c k v σ =
      (match entryDecisionP c k v with
       | .drop => .drop σ
       | .keepEmail sk => .keepEmail sk σ
       | .sanitize sk => .sanitize sk σ) := by
  unfold entryDecision entryDecisionP
  rw [h]
  simp only [Bool.false_and, Bool.false_eq_true, if_false, ite_false]
  split_ifs <;> simp

mutual

theorem sanitizeValueS_noRM : ∀ (v : JValue) (c : Config) (iv : Bool) (σ : PatState),
    c.removeMatches = false → sanitizeValueS v c iv σ = (sanitizeValueP v c iv, σ)
  | .null, _, _, _, _ => rfl
  | .bool _, _, _, _, _ => rfl
  | .num _, _, _, _, _ => rfl
  | .date _, _, _, _, _ => rfl
  | .func _, _, _, _, _ => rfl
  | .regexp _, _, _, _, _ => rfl
  | .str s, c, iv, σ, _ => by
    by_cases hs : s.isEmpty <;> simp [sanitizeValueS, sanitizeValueP, hs]
  | .arr xs, c, iv, σ, h => by
    simp only [sanitizeValueS, sanitizeValueP]
    rw [sanitizeListS_noRM xs c σ h]
  | .obj kvs, c, iv, σ, h => by
    simp only [sanitizeValueS, sanitizeValueP]
    rw [sanitizeEntriesS_noRM kvs c σ [] h]

theorem sanitizeListS_noRM : ∀ (xs : List JValue) (c : Config) (σ : PatState),
    c.removeMatches = false → sanitizeListS xs c σ = (sanitizeListP xs c, σ)
  | [], _, _, _ => rfl
  | x :: rest, c, σ, h => by
    simp only [sanitizeListS, sanitizeListP]
    rw [sanitizeValueS_noRM x c true σ h]
    rw [sanitizeListS_noRM rest c σ h]

theorem sanitizeEntriesS_noRM : ∀ (kvs : List (String × JValue)) (c : Config) (σ : PatState)
    (acc : List (String × JValue)), c.removeMatches = false →
    sanitizeEntriesS kvs c σ acc = (sanitizeEntriesP kvs c acc, σ)
  | [], _, _, _, _ => rfl
  | (k, v) :: rest, c, σ, acc, h => by
    simp only [sanitizeEntriesS, sanitizeEntriesP]
    rw [entryDecision_noRM c k v σ h]
    cases entryDecisionP c k v with
    | drop => exact sanitizeEntriesS_noRM rest c σ acc h
    | keepEmail sk => exact sanitizeEntriesS_noRM rest c σ _ h
    | sanitize sk =>
      simp only []
      rw [sanitizeValueS_noRM v c true σ h]
      by_cases hre : (!c.removeEmpty || truthy (sanitizeValueP v c true)) = true
      · simp only [hre, if_true]
        exact sanitizeEntriesS_noRM rest c σ _ h
      · simp only [hre, if_false]
        exact sanitizeEntriesS_noRM rest c σ acc h

end

theorem sanitizeValue_noRM (v : JValue) (c : Config) (iv : Bool)
    (h : c.removeMatches = false) : sanitizeValue v c iv = sanitizeValueP v c iv := by
  unfold sanitizeValue
  rw [sanitizeValueS_noRM v c iv PatState.init h]

/-! ### Denied keys are dropped before anything else -/

theorem entryDecision_denied (c : Config) (k : String) (v : JValue) (σ : PatState)
    (h : c.deniedKeys.contains k = true) : entryDecision c k v σ = .drop σ := by
  unfold entryDecision
  have hc : ((!c.allowedKeys.isEmpty && !c.allowedKeys.contains k) ||
      c.deniedKeys.contains k) = true := by
    rw [h]
    simp
  simp only [hc]
  simp

/-- Erasing the denied-key entries from an object changes nothing: the
allow/deny filter drops them before any key sanitization, pattern test or
email check runs (so the email branch at source line 288 is unreachable). -/
theorem sanitizeEntriesS_filter_denied (kvs : List (String × JValue)) (c : Config)
    (σ : PatState) (acc : List (String × JValue)) :
    sanitizeEntriesS (kvs.filter (fun p => !c.deniedKeys.contains p.1)) c σ acc =
      sanitizeEntriesS kvs c σ acc := by
  induction kvs generalizing σ acc with
  | nil => rfl
  | cons p rest ih =>
    obtain ⟨k, v⟩ := p
    rw [List.filter_cons]
    by_cases hd : c.deniedKeys.contains k = true
    · simp only [hd, Bool.not_true, Bool.false_eq_true, if_false]
      rw [ih σ acc]
      conv_rhs => rw [sanitizeEntriesS]
      rw [entryDecision_denied c k v σ hd]
    · simp only [Bool.not_eq_true] at hd
      simp only [hd, Bool.not_false, if_true]
      rw [sanitizeEntriesS, sanitizeEntriesS]
      cases hD : entryDecision c k v σ with
      | drop σ1 => exact ih σ1 acc
      | keepEmail sk σ1 => exact ih σ1 _
      | sanitize sk σ1 =>
        simp only []
        by_cases hre : (!c.removeEmpty || truthy (sanitizeValueS v c true σ1).1) = true
        · simp only [hre, if_true]
          exact ih _ _
        · simp only [hre, if_false]
          exact ih _ _

/-! ### Association-insertion lemmas -/

theorem insertAssoc_mem (acc : List (String × JValue)) (k : String) (v : JValue)
    (p : String × JValue) (h : p ∈ insertAssoc acc k v) : p ∈ acc ∨ p = (k, v) := by
  induction acc with
  | nil =>
    simp [insertAssoc] at h
    exact Or.inr h
  | cons q rest ih =>
    obtain ⟨k1, v1⟩ := q
    rw [insertAssoc] at h
    by_cases hk : k1 = k
    · simp only [hk, if_true] at h
      rcases List.mem_cons.mp h with h1 | h1
      · exact Or.inr h1
      · exact Or.inl (List.mem_cons_of_mem _ h1)
    · simp only [hk, if_false] at h
      rcases List.mem_cons.mp h with h1 | h1
      · exact Or.inl (h1 ▸ List.mem_cons_self _ _)
      · rcases ih h1 with h2 | h2
        · exact Or.inl (List.mem_cons_of_mem _ h2)
        · exact Or.inr h2

theorem foldInsert_mem (ps : List (String × JValue)) (acc : List (String × JValue))
    (p : String × JValue) (h : p ∈ foldInsert acc ps) : p ∈ acc ∨ p ∈ ps := by
  induction ps generalizing acc with
  | nil => exact Or.inl h
  | cons q rest ih =>
    obtain ⟨k, v⟩ := q
    rw [foldInsert] at h
    rcases ih (insertAssoc acc k v) h with h1 | h1
    · rcases insertAssoc_mem acc k v p h1 with h2 | h2
      · exact Or.inl h2
      · exact Or.inr (h2 ▸ List.mem_cons_self _ _)
    · exact Or.inr (List.mem_cons_of_mem _ h1)

theorem insertAssoc_keys (acc : List (String × JValue)) (k : String) (v : JValue) :
    (insertAssoc acc k v).map Prod.fst =
      if k ∈ acc.map Prod.fst then acc.map Prod.fst else acc.map Prod.fst ++ [k] := by
  induction acc with
  | nil => simp [insertAssoc]
  | cons q rest ih =>
    obtain ⟨k1, v1⟩ := q
    rw [insertAssoc]
    by_cases hk : k1 = k
    · simp [hk]
    · have hk2 : ¬k = k1 := fun he => hk he.symm
      simp only [hk, if_false, List.map_cons, ih]
      by_cases hm : k ∈ rest.map Prod.fst
      · simp [hm, hk2]
      · simp [hm, hk2]

theorem insertAssoc_not_mem (acc : List (String × JValue)) (k : String) (v : JValue)
    (h : ¬k ∈ acc.map Prod.fst) : insertAssoc acc k v = acc ++ [(k, v)] := by
  induction acc with
  | nil => rfl
  | cons q rest ih =>
    obtain ⟨k1, v1⟩ := q
    simp only [List.map_cons, List.mem_cons] at h
    push_neg at h
    rw [insertAssoc]
    have : ¬k1 = k := fun he => h.1 he.symm
    simp only [this, if_false, List.cons_append]
    rw [ih h.2]

theorem insertAssoc_keys_nodup (acc : List (String × JValue)) (k : String) (v : JValue)
    (h : (acc.map Prod.fst).Nodup) : ((insertAssoc acc k v).map Prod.fst).Nodup := by
  rw [insertAssoc_keys]
  by_cases hm : k ∈ acc.map Prod.fst
  · simpa [hm]
  · simp only [hm, if_false]
    simp [List.nodup_append, h, hm]

theorem foldInsert_keys_nodup (ps : List (String × JValue)) (acc : List (String × JValue))
    (h : (acc.map Prod.fst).Nodup) : ((foldInsert acc ps).map Prod.fst).Nodup := by
  induction ps generalizing acc with
  | nil => exact h
  | cons q rest ih =>
    obtain ⟨k, v⟩ := q
    rw [foldInsert]
    exact ih _ (insertAssoc_keys_nodup acc k v h)

theorem foldInsert_of_nodup (ps : List (String × JValue)) (acc : List (String × JValue))
    (h : (((acc ++ ps)).map Prod.fst).Nodup) : foldInsert acc ps = acc ++ ps := by
  induction ps generalizing acc with
  | nil => simp [foldInsert]
  | cons q rest ih =>
    obtain ⟨k, v⟩ := q
    have hnot : ¬k ∈ acc.map Prod.fst := by
      intro hm
      rw [List.map_append] at h
      rcases (List.nodup_append.mp h) with ⟨_, _, hdisj⟩
      exact hdisj hm (by simp)
    rw [foldInsert, insertAssoc_not_mem acc k v hnot]
    have hre : ((acc ++ [(k, v)]) ++ rest).map Prod.fst = ((acc ++ (k, v) :: rest)).map Prod.fst := by
      simp
    rw [ih (acc ++ [(k, v)]) (by rw [hre]; exact h)]
    simp

/-! ### Idempotence under the default configuration -/

theorem sanitizeStringCore_default_idem (s : String) (iv1 iv2 : Bool) :
    sanitizeStringCore (sanitizeStringCore s defaultConfig.replaceWith defaultConfig.stringOptions iv1)
        defaultConfig.replaceWith defaultConfig.stringOptions iv2 =
      sanitizeStringCore s defaultConfig.replaceWith defaultConfig.stringOptions iv1 := by
  rw [sanitizeStringCore_default s iv1]
  by_cases he : isEmailStr s = true
  · simp only [he, if_true]
    rw [sanitizeStringCore_default s iv2]
    simp [he]
  · simp only [he, Bool.false_eq_true, if_false]
    rw [sanitizeStringCore_default _ iv2]
    by_cases hf :
        isEmailStr (String.mk (s.toList.filter (fun c => !isDangerChar c))) = true
    · simp [hf]
    · simp only [hf, Bool.false_eq_true, if_false]
      congr 1
      show List.filter (fun c => !isDangerChar c)
          (List.filter (fun c => !isDangerChar c) s.toList) =
        s.toList.filter (fun c => !isDangerChar c)
      simp [List.filter_filter]

theorem sanitizeValueP_str (s : String) (c : Config) (iv : Bool) :
    sanitizeValueP (.str s) c iv =
      if s.isEmpty then .str s
      else .str (sanitizeStringCore s c.replaceWith c.stringOptions iv) :=
  rfl

theorem entryDecisionP_default (k : String) (v : JValue) :
    entryDecisionP defaultConfig k v =
      .sanitize (sanitizeStringCore k defaultConfig.replaceWith defaultConfig.stringOptions false) := by
  unfold entryDecisionP
  simp [defaultConfig]

theorem sanitizeListP_eq_map (xs : List JValue) (c : Config) :
    sanitizeListP xs c = xs.map (fun x => sanitizeValueP x c true) := by
  induction xs with
  | nil => rfl
  | cons x rest ih => rw [sanitizeListP, ih, List.map_cons]

theorem sanitizeEntriesP_default (kvs : List (String × JValue))
    (acc : List (String × JValue)) :
    sanitizeEntriesP kvs defaultConfig acc = foldInsert acc (defaultEntryImage kvs) := by
  induction kvs generalizing acc with
  | nil => rfl
  | cons q rest ih =>
    obtain ⟨k, v⟩ := q
    rw [sanitizeEntriesP, entryDecisionP_default]
    simp only []
    have hcond : (!defaultConfig.removeEmpty || truthy (sanitizeValueP v defaultConfig true)) = true := by
      simp [defaultConfig]
    simp only [hcond, if_true]
    rw [ih]
    rfl

mutual

theorem sanitizeValueP_default_idem : ∀ (v : JValue) (iv1 iv2 : Bool),
    sanitizeValueP (sanitizeValueP v defaultConfig iv1) defaultConfig iv2 =
      sanitizeValueP v defaultConfig iv1
  | .null, _, _ => rfl
  | .bool _, _, _ => rfl
  | .num _, _, _ => rfl
  | .date _, _, _ => rfl
  | .func _, _, _ => rfl
  | .regexp _, _, _ => rfl
  | .str s, iv1, iv2 => by
    rw [sanitizeValueP_str]
    split_ifs with hs
    · rw [sanitizeValueP_str]
      simp [hs]
    · rw [sanitizeValueP_str]
      split_ifs with hs2
      · rfl
      · rw [sanitizeStringCore_default_idem s iv1 iv2]
  | .arr xs, iv1, iv2 => by
    have h1 : sanitizeValueP (.arr xs) defaultConfig iv1 =
        .arr (sanitizeListP xs defaultConfig) := rfl
    have h2 : ∀ ys, sanitizeValueP (.arr ys) defaultConfig iv2 =
        .arr (sanitizeListP ys defaultConfig) := fun ys => rfl
    rw [h1, h2]
    congr 1
    rw [sanitizeListP_eq_map, sanitizeListP_eq_map, List.map_map]
    exact List.map_congr_left (fun x hx => sanitizeListP_default_fix xs x hx)
  | .obj kvs, iv1, iv2 => by
    have h1 : sanitizeValueP (.obj kvs) defaultConfig iv1 =
        .obj (sanitizeEntriesP kvs defaultConfig []) := rfl
    have h2 : ∀ es, sanitizeValueP (.obj es) defaultConfig iv2 =
        .obj (sanitizeEntriesP es defaultConfig []) := fun es => rfl
    rw [h1, h2]
    congr 1
    rw [sanitizeEntriesP_default, sanitizeEntriesP_default]
    have himg : defaultEntryImage (foldInsert [] (defaultEntryImage kvs)) =
        foldInsert [] (defaultEntryImage kvs) := by
      rw [defaultEntryImage]
      have hpt : ∀ p ∈ foldInsert [] (defaultEntryImage kvs),
          (sanitizeStringCore p.1 defaultConfig.replaceWith defaultConfig.stringOptions false,
           sanitizeValueP p.2 defaultConfig true) = p := by
        intro p hp
        rcases foldInsert_mem _ [] p hp with h | h
        · cases h
        · rcases List.mem_map.mp h with ⟨q, hq, hqe⟩
          subst hqe
          have hk := sanitizeStringCore_default_idem q.1 false false
          have hv := sanitizeEntriesP_default_fix kvs q hq
          simp only []
          rw [hk, hv]
      calc (foldInsert [] (defaultEntryImage kvs)).map (fun p =>
              (sanitizeStringCore p.1 defaultConfig.replaceWith defaultConfig.stringOptions false,
               sanitizeValueP p.2 defaultConfig true))
          = (foldInsert [] (defaultEntryImage kvs)).map id := List.map_congr_left hpt
        _ = foldInsert [] (defaultEntryImage kvs) := List.map_id _
    rw [himg]
    apply foldInsert_of_nodup
    simp only [List.nil_append]
    exact foldInsert_keys_nodup _ [] (by simp)

theorem sanitizeListP_default_fix : ∀ (xs : List JValue), ∀ x ∈ xs,
    sanitizeValueP (sanitizeValueP x defaultConfig true) defaultConfig true =
      sanitizeValueP x defaultConfig true
  | [] => by
    intro x hx
    cases hx
  | x :: rest => by
    intro y hy
    rcases List.mem_cons.mp hy with h | h
    · exact h ▸ sanitizeValueP_default_idem x true true
    · exact sanitizeListP_default_fix rest y h

theorem sanitizeEntriesP_default_fix : ∀ (kvs : List (String × JValue)), ∀ p ∈ kvs,
    sanitizeValueP (sanitizeValueP p.2 defaultConfig true) defaultConfig true =
      sanitizeValueP p.2 defaultConfig true
  | [] => by
    intro p hp
    cases hp
  | q :: rest => by
    intro p hp
    rcases List.mem_cons.mp hp with h | h
    · exact h ▸ sanitizeValueP_default_idem q.2 true true
    · exact sanitizeEntriesP_default_fix rest p h

end

/-! ### The `recursive` flag is never consulted -/

theorem entryDecision_recursive_indep (c : Config) (b : Bool) (k : String) (v : JValue)
    (σ : PatState) : entryDecision { c with recursive := b } k v σ = entryDecision c k v σ :=
  rfl

mutual

theorem sanitizeValueS_recursive_indep : ∀ (v : JValue) (c : Config) (b : Bool) (iv : Bool)
    (σ : PatState), sanitizeValueS v { c with recursive := b } iv σ = sanitizeValueS v c iv σ
  | .null, _, _, _, _ => rfl
  | .bool _, _, _, _, _ => rfl
  | .num _, _, _, _, _ => rfl
  | .date _, _, _, _, _ => rfl
  | .func _, _, _, _, _ => rfl
  | .regexp _, _, _, _, _ => rfl
  | .str _, _, _, _, _ => rfl
  | .arr xs, c, b, iv, σ => by
    rw [sanitizeValueS, sanitizeValueS]
    rw [sanitizeListS_recursive_indep xs c b σ]
  | .obj kvs, c, b, iv, σ => by
    rw [sanitizeValueS, sanitizeValueS]
    rw [sanitizeEntriesS_recursive_indep kvs c b σ []]

theorem sanitizeListS_recursive_indep : ∀ (xs : List JValue) (c : Config) (b : Bool)
    (σ : PatState), sanitizeListS xs { c with recursive := b } σ = sanitizeListS xs c σ
  | [], _, _, _ => rfl
  | x :: rest, c, b, σ => by
    rw [sanitizeListS, sanitizeListS]
    rw [sanitizeValueS_recursive_indep x c b true σ]
    rw [sanitizeListS_recursive_indep rest c b _]

theorem sanitizeEntriesS_recursive_indep : ∀ (kvs : List (String × JValue)) (c : Config)
    (b : Bool) (σ : PatState) (acc : List (String × JValue)),
    sanitizeEntriesS kvs { c with recursive := b } σ acc = sanitizeEntriesS kvs c σ acc
  | [], _, _, _, _ => rfl
  | (k, v) :: rest, c, b, σ, acc => by
    rw [sanitizeEntriesS, sanitizeEntriesS]
    rw [entryDecision_recursive_indep c b k v σ]
    cases hD : entryDecision c k v σ with
    | drop σ1 => exact sanitizeEntriesS_recursive_indep rest c b σ1 acc
    | keepEmail sk σ1 => exact sanitizeEntriesS_recursive_indep rest c b σ1 _
    | sanitize sk σ1 =>
      simp only []
      rw [sanitizeValueS_recursive_indep v c b true σ1]
      have hrm : ({ c with recursive := b } : Config).removeEmpty = c.removeEmpty := rfl
      rw [hrm]
      by_cases hre : (!c.removeEmpty || truthy (sanitizeValueS v c true σ1).1) = true
      · simp only [hre, if_true]
        exact sanitizeEntriesS_recursive_indep rest c b _ _
      · simp only [hre, if_false]
        exact sanitizeEntriesS_recursive_indep rest c b _ _

end


/-! ### Validator-table lemmas -/

theorem validateList_ok_iff (l : List (String × JValue × Bool)) :
    validateList l = .ok () ↔ l.all (fun e => e.2.2) = true := by
  induction l with
  | nil => simp [validateList]
  | cons e rest ih =>
    obtain ⟨key, value, ok⟩ := e
    rw [validateList]
    by_cases hok : ok = true
    · simp [hok, ih]
    · simp [hok]

theorem validateList_error_kind (l : List (String × JValue × Bool)) (e : ConfigError)
    (h : validateList l = .error e) : e.kind = "type_error" := by
  induction l with
  | nil => cases h
  | cons q rest ih =>
    obtain ⟨key, value, ok⟩ := q
    rw [validateList] at h
    by_cases hok : ok = true
    · simp only [hok, if_true] at h
      exact ih h
    · simp only [hok, if_false] at h
      cases h
      rfl

/-! ### The claims -/

/-- Claim C1, counterexample: with deny-list `["email"]` and an object whose
`email` key holds the syntactically valid email `a@b.co`, the Object
Sanitizer drops the pair entirely — the output is the empty object, not an
object preserving the email pair as the claim states. -/
theorem claim_c1_email_preservation_cex :
    sanitizeValue (.obj [("email", .str "a@b.co")])
        { defaultConfig with deniedKeys := ["email"] } false = .obj [] ∧
      isEmailStr "a@b.co" = true :=
  ⟨rfl, rfl⟩

/-- Claim C1, amended: every entry whose key is in the deny-list is dropped
unconditionally — removing the denied-key entries from the input object does
not change the sanitizer output at all, for every configuration, value flag
and pattern-register state.  In particular email-valued denied keys are not
preserved: the allow/deny filter (source line 275) rejects denied keys before
the email-preservation branch (line 288) can run, leaving that branch
unreachable. -/
theorem claim_c1_denied_keys_always_dropped :
    ∀ (kvs : List (String × JValue)) (c : Config) (iv : Bool) (σ : PatState),
    sanitizeValueS (.obj (kvs.filter (fun p => !c.deniedKeys.contains p.1))) c iv σ =
      sanitizeValueS (.obj kvs) c iv σ := by
  intro kvs c iv σ
  rw [sanitizeValueS, sanitizeValueS]
  rw [sanitizeEntriesS_filter_denied]

/-- Claim C2, counterexample: with `removeMatches` enabled, two successive
invocations of the dispatcher on the same object disagree, because the first
`pattern.test` call left `lastIndex = 2` on the frozen global `/\$/g` regex:
the first call removes the key `a$`, the second call (resuming at
`lastIndex = 2`) fails to match it and keeps the sanitized key. -/
theorem claim_c2_shared_lastindex_cex :
    sanitizeValueS (.obj [("a$", .num 1)]) { defaultConfig with removeMatches := true } false
        PatState.init = (.obj [], ⟨2, 0, 0, 0, 0⟩) ∧
      sanitizeValueS (.obj [("a$", .num 1)]) { defaultConfig with removeMatches := true } false
        ⟨2, 0, 0, 0, 0⟩ = (.obj [("a", .num 1)], ⟨0, 0, 0, 0, 0⟩) ∧
      JValue.obj [] ≠ JValue.obj [("a", .num 1)] :=
  ⟨rfl, rfl, by
    intro h
    injection h with h1
    exact List.noConfusion h1⟩

/-- Claim C2, amended: sanitization is deterministic and stateless exactly
when `removeMatches` is disabled — the dispatcher then neither reads nor
writes the global patterns' `lastIndex` registers, so from any register
state it returns the fresh-state result and leaves the state unchanged;
successive calls therefore agree. -/
theorem claim_c2_determinism_without_remove_matches :
    ∀ (v : JValue) (c : Config) (iv : Bool) (σ : PatState),
    c.removeMatches = false → sanitizeValueS v c iv σ = (sanitizeValue v c iv, σ) := by
  intro v c iv σ h
  rw [sanitizeValueS_noRM v c iv σ h, sanitizeValue_noRM v c iv h]

/-- Witness for claim C2: the amended determinism theorem applied to a
concrete string and a concrete non-initial register state. -/
theorem claim_c2_determinism_witness :
    sanitizeValueS (.str "a.b") defaultConfig true ⟨7, 7, 7, 7, 7⟩ =
      (sanitizeValue (.str "a.b") defaultConfig true, ⟨7, 7, 7, 7, 7⟩) :=
  claim_c2_determinism_without_remove_matches (.str "a.b") defaultConfig true ⟨7, 7, 7, 7, 7⟩ rfl

/-- Claim C3: under the default configuration, a string containing `$`, `.`
or a control character (U+0000-U+001F, U+007F-U+009F) is either returned
unchanged (when the whole string is a syntactically valid email) or loses
every such character (each match of the combined pattern is replaced by the
empty default replacement). -/
theorem claim_c3_pattern_neutralization :
    ∀ (s : String) (iv : Bool),
    s.toList.any (fun c => pat1Class c || pat2Class c || pat4Class c) = true →
    (isEmailStr s = true →
      sanitizeStringCore s defaultConfig.replaceWith defaultConfig.stringOptions iv = s) ∧
    (isEmailStr s = false →
      ∀ c ∈ (sanitizeStringCore s defaultConfig.replaceWith defaultConfig.stringOptions iv).toList,
        pat1Class c = false ∧ pat2Class c = false ∧ pat4Class c = false) := by
  intro s iv _
  rw [sanitizeStringCore_default]
  constructor
  · intro he
    simp [he]
  · intro he
    simp only [he, Bool.false_eq_true, if_false]
    intro c hc
    have hmem : c ∈ s.toList.filter (fun x => !isDangerChar x) := hc
    have hnd : (!isDangerChar c) = true := (List.mem_filter.mp hmem).2
    have h1 : pat1Class c = false := by
      cases hX : pat1Class c
      · rfl
      · unfold isDangerChar at hnd
        rw [hX] at hnd
        simp at hnd
    have h2 : pat2Class c = false := by
      cases hX : pat2Class c
      · rfl
      · unfold isDangerChar at hnd
        rw [hX] at hnd
        simp at hnd
    have h4 : pat4Class c = false := by
      cases hX : pat4Class c
      · rfl
      · unfold isDangerChar at hnd
        rw [hX] at hnd
        simp at hnd
    exact ⟨h1, h2, h4⟩

/-- Witness for claim C3: the neutralization theorem applied to the concrete
string `a$b.` (which contains a dollar and a dot and is not an email). -/
theorem claim_c3_pattern_neutralization_witness :
    ("a$b.".toList.any (fun c => pat1Class c || pat2Class c || pat4Class c) = true) ∧
    ((isEmailStr "a$b." = true →
        sanitizeStringCore "a$b." defaultConfig.replaceWith defaultConfig.stringOptions false =
          "a$b.") ∧
      (isEmailStr "a$b." = false →
        ∀ c ∈ (sanitizeStringCore "a$b." defaultConfig.replaceWith
            defaultConfig.stringOptions false).toList,
          pat1Class c = false ∧ pat2Class c = false ∧ pat4Class c = false)) :=
  ⟨rfl, claim_c3_pattern_neutralization "a$b." false rfl⟩

/-- Claim C4, counterexample: sanitization is not idempotent for every
configuration.  With deny-list `[""]` (a legal configuration) and the object
`{"$": "$"}` built only from dangerous ASCII characters, the first pass
yields `{"": ""}`, and a second pass drops that entry because the sanitized
key `""` is now in the deny-list — so sanitizing the sanitized value changes
it again. -/
theorem claim_c4_idempotence_cex :
    sanitizeValue (.obj [("$", .str "$")]) { defaultConfig with deniedKeys := [""] } true
        = .obj [("", .str "")] ∧
      sanitizeValue
          (sanitizeValue (.obj [("$", .str "$")]) { defaultConfig with deniedKeys := [""] } true)
          { defaultConfig with deniedKeys := [""] } true = .obj [] ∧
      JValue.obj [("", .str "")] ≠ JValue.obj [] :=
  ⟨rfl, rfl, by
    intro h
    injection h with h1
    exact List.noConfusion h1⟩

/-- Claim C4, amended: sanitization is idempotent under the resolved default
configuration: re-sanitizing an already-sanitized value (with either value
flag) returns it unchanged — no dangerous patterns remain to match on a
second pass. -/
theorem claim_c4_default_idempotence :
    ∀ (v : JValue) (iv1 iv2 : Bool),
    sanitizeValue (sanitizeValue v defaultConfig iv1) defaultConfig iv2 =
      sanitizeValue v defaultConfig iv1 := by
  intro v iv1 iv2
  have hb : ∀ (w : JValue) (iv : Bool),
      sanitizeValue w defaultConfig iv = sanitizeValueP w defaultConfig iv :=
    fun w iv => sanitizeValue_noRM w defaultConfig iv rfl
  simp only [hb]
  exact sanitizeValueP_default_idem v iv1 iv2

/-- Claim C5: in manual mode, a non-skipped request reaches the next stage
with every section (hence the body) unmodified and the pattern registers
untouched, with the sanitize callable attached; invoking that callable with
no override options — which is exactly `handleRequestS` with the base
configuration, since `{ ...opts, ...undefined }` is `opts` — produces the
same request and register state auto mode would have produced. -/
theorem claim_c5_manual_mode :
    ∀ (c : Config) (req : Request) (σ : PatState),
    shouldSkip c req = false →
    (middlewareS .manual c req σ).req = req ∧
    (middlewareS .manual c req σ).sanitizeAttached = true ∧
    (middlewareS .manual c req σ).state = σ ∧
    handleRequestS req c σ =
      ((middlewareS .auto c req σ).req, (middlewareS .auto c req σ).state) := by
  intro c req σ h
  unfold middlewareS
  simp [h]

/-- Witness for claim C5: the manual-mode theorem applied to the default
configuration and a concrete request with a writable body. -/
theorem claim_c5_manual_mode_witness :
    (middlewareS .manual defaultConfig reqBodyWritable PatState.init).req = reqBodyWritable ∧
    (middlewareS .manual defaultConfig reqBodyWritable PatState.init).sanitizeAttached = true ∧
    (middlewareS .manual defaultConfig reqBodyWritable PatState.init).state = PatState.init ∧
    handleRequestS reqBodyWritable defaultConfig PatState.init =
      ((middlewareS .auto defaultConfig reqBodyWritable PatState.init).req,
        (middlewareS .auto defaultConfig reqBodyWritable PatState.init).state) :=
  claim_c5_manual_mode defaultConfig reqBodyWritable PatState.init rfl

/-- Claim C6, counterexample: a recognized field failing its documented type
does not always raise — `removeMatches: 5` is not a boolean, yet the setup
validation accepts it, because the validator for `removeMatches` is
`isPrimitive` (null, boolean or number), not a boolean check. -/
theorem claim_c6_remove_matches_not_boolean_cex :
    expressMongoSanitizeCheck { removeMatches := some (.num 5) } = .ok () ∧
      isPrimitive (.num 5) = true :=
  ⟨rfl, rfl⟩

/-- Claim C6, amended: the setup validation succeeds exactly when every
field of the merged options passes its table predicate — `replaceWith` a
string, `mode` in the enumeration, `customSanitizer` null or a function,
the list fields arrays, the sub-option fields plain objects, but
`removeMatches`, `recursive` and `removeEmpty` only primitives (so a
non-boolean primitive such as `5` is accepted for them).  Every raised
error carries kind `type_error`, and a failing `replaceWith` (the first
table entry) is reported with its field name and value. -/
theorem claim_c6_validation_characterization :
    ∀ (m : MergedOptions),
    (validateOptions m = .ok () ↔
      (isString m.replaceWith = true ∧ isPrimitive m.removeMatches = true ∧
       isArray m.sanitizeObjects = true ∧ modeValueOk m.mode = true ∧
       isArray m.skipRoutes = true ∧
       (isNullJ m.customSanitizer || isFunction m.customSanitizer) = true ∧
       isPrimitive m.recursive = true ∧ isPrimitive m.removeEmpty = true ∧
       isArray m.patterns = true ∧
       (isNullJ m.allowedKeys || isArray m.allowedKeys) = true ∧
       (isNullJ m.deniedKeys || isArray m.deniedKeys) = true ∧
       isPlainObject m.stringOptions = true ∧ isPlainObject m.arrayOptions = true)) ∧
    (∀ e, validateOptions m = .error e → e.kind = "type_error") ∧
    (isString m.replaceWith = false →
      validateOptions m = .error ⟨"replaceWith", m.replaceWith, "type_error"⟩) := by
  intro m
  refine ⟨?_, ?_, ?_⟩
  · rw [validateOptions, validateList_ok_iff]
    simp [validators]
  · intro e he
    exact validateList_error_kind _ e he
  · intro hrw
    rw [validateOptions, validators, validateList]
    simp [hrw]

/-- Claim C7: the array shaping options behave as specified on the claim's
inputs — `distinct` deduplicates `[1,1,2,"a","a"]` to `[1,2,"a"]` by value
equality with first-occurrence order, and `filterNull` drops every falsy
element of `[0,1,null,"","x"]`, yielding `[1,"x"]` (a truthiness filter).
The embedding is a pure function, so the result is a fresh list and the
input array is never mutated. -/
theorem claim_c7_array_options :
    sanitizeValue (.arr [.num 1, .num 1, .num 2, .str "a", .str "a"])
        { defaultConfig with arrayOptions := { filterNull := false, distinct := true } } false
      = .arr [.num 1, .num 2, .str "a"] ∧
    sanitizeValue (.arr [.num 0, .num 1, .null, .str "", .str "x"])
        { defaultConfig with arrayOptions := { filterNull := true, distinct := false } } false
      = .arr [.num 1, .str "x"] :=
  ⟨rfl, rfl⟩

/-- Claim C8: skip-route matching is by exact canonical path — with
`skipRoutes: ["/health"]` the paths `/health/` and `/health?x=1` are
skipped (both clean to `/health`), `/healthcheck` is not, and in general a
request is skipped exactly when its cleaned path equals the cleaned skip
route (no wildcard or prefix matching). -/
theorem claim_c8_skip_route_exactness :
    shouldSkip { defaultConfig with skipRoutes := ["/health"] }
        { sections := [], path := "/health/" } = true ∧
    shouldSkip { defaultConfig with skipRoutes := ["/health"] }
        { sections := [], path := "/health?x=1" } = true ∧
    shouldSkip { defaultConfig with skipRoutes := ["/health"] }
        { sections := [], path := "/healthcheck" } = false ∧
    ∀ p : String,
      shouldSkip { defaultConfig with skipRoutes := ["/health"] } { sections := [], path := p } =
        (cleanUrl "/health" == cleanUrl p) := by
  refine ⟨by decide, by decide, by decide, ?_⟩
  intro p
  show (["/health"].any fun skipPath => cleanUrl skipPath == cleanUrl p) =
    (cleanUrl "/health" == cleanUrl p)
  rw [List.any_cons, List.any_nil, Bool.or_false]

/-- Claim C9, counterexample: the sanitized result is not always re-attached
to the request.  For a non-writable `body` binding the adapter leaves the
request unchanged — the `Object.defineProperty` fallback applies only to the
`query` section — even though sanitization changed the value. -/
theorem claim_c9_nonwritable_body_cex :
    (handleRequestS reqBodyReadOnly defaultConfig PatState.init).1 = reqBodyReadOnly ∧
      sanitizeValue (snapshot (.obj [("a", .str "$")])) defaultConfig false =
        .obj [("a", .str "")] ∧
      JValue.obj [("a", .str "$")] ≠ JValue.obj [("a", .str "")] :=
  ⟨rfl, rfl, by
    intro h
    injection h with h1
    injection h1 with h2 h3
    injection h2 with h4 h5
    injection h5 with h6
    exact absurd h6 (by decide)⟩

/-- Claim C9, amended: for a present, truthy, non-empty section with no
custom sanitizer, the write-back is a trichotomy — a writable binding is
assigned the sanitized snapshot directly; a non-writable binding is
redefined with a fresh writable descriptor only when the section is exactly
`query` and its value is a plain object; any other non-writable section is
left untouched and the sanitized result is discarded. -/
theorem claim_c9_writeback :
    ∀ (c : Config) (req : Request) (name : String) (sec : SectionBinding) (σ : PatState),
    lookupSection req.sections name = some sec →
    truthy sec.value = true →
    isObjectEmpty sec.value = false →
    c.customSanitizer = none →
    (sec.writable = true →
      handleSection c req name σ =
        (⟨setSectionValue req.sections name
            ⟨(sanitizeValueS (snapshot sec.value) c false σ).1, sec.writable⟩, req.path⟩,
          (sanitizeValueS (snapshot sec.value) c false σ).2)) ∧
    (sec.writable = false → isPlainObject sec.value = true → name = "query" →
      handleSection c req name σ =
        (⟨setSectionValue req.sections name
            ⟨(sanitizeValueS (snapshot sec.value) c false σ).1, true⟩, req.path⟩,
          (sanitizeValueS (snapshot sec.value) c false σ).2)) ∧
    (sec.writable = false → (isPlainObject sec.value = false ∨ ¬name = "query") →
      handleSection c req name σ = (req, (sanitizeValueS (snapshot sec.value) c false σ).2)) := by
  intro c req name sec σ h1 h2 h3 h4
  unfold handleSection
  rw [h1, h4]
  simp only [h2, h3]
  refine ⟨?_, ?_, ?_⟩
  · intro hw
    simp [hw]
  · intro hw hp hq
    simp [hw, hp, hq]
  · intro hw hor
    rcases hor with hp | hq
    · simp [hw, hp]
    · simp [hw, hq]

/-- Witness for claim C9: the write-back trichotomy applied to a concrete
request whose `body` binding is not writable. -/
theorem claim_c9_writeback_witness :
    ((⟨.obj [("a", .str "$")], false⟩ : SectionBinding).writable = true →
      handleSection defaultConfig reqBodyReadOnly "body" PatState.init =
        (⟨setSectionValue reqBodyReadOnly.sections "body"
            ⟨(sanitizeValueS (snapshot (⟨.obj [("a", .str "$")], false⟩ : SectionBinding).value)
                defaultConfig false PatState.init).1,
              (⟨.obj [("a", .str "$")], false⟩ : SectionBinding).writable⟩,
            reqBodyReadOnly.path⟩,
          (sanitizeValueS (snapshot (⟨.obj [("a", .str "$")], false⟩ : SectionBinding).value)
            defaultConfig false PatState.init).2)) ∧
    ((⟨.obj [("a", .str "$")], false⟩ : SectionBinding).writable = false →
      isPlainObject (⟨.obj [("a", .str "$")], false⟩ : SectionBinding).value = true →
      "body" = "query" →
      handleSection defaultConfig reqBodyReadOnly "body" PatState.init =
        (⟨setSectionValue reqBodyReadOnly.sections "body"
            ⟨(sanitizeValueS (snapshot (⟨.obj [("a", .str "$")], false⟩ : SectionBinding).value)
                defaultConfig false PatState.init).1, true⟩,
            reqBodyReadOnly.path⟩,
          (sanitizeValueS (snapshot (⟨.obj [("a", .str "$")], false⟩ : SectionBinding).value)
            defaultConfig false PatState.init).2)) ∧
    ((⟨.obj [("a", .str "$")], false⟩ : SectionBinding).writable = false →
      (isPlainObject (⟨.obj [("a", .str "$")], false⟩ : SectionBinding).value = false ∨
        ¬"body" = "query") →
      handleSection defaultConfig reqBodyReadOnly "body" PatState.init =
        (reqBodyReadOnly,
          (sanitizeValueS (snapshot (⟨.obj [("a", .str "$")], false⟩ : SectionBinding).value)
            defaultConfig false PatState.init).2)) :=
  claim_c9_writeback defaultConfig reqBodyReadOnly "body" ⟨.obj [("a", .str "$")], false⟩
    PatState.init rfl rfl rfl rfl

/-- Claim C10: the `recursive` configuration flag has no effect — for every
value, configuration, value flag and pattern-register state, the dispatcher
output (and final register state) with `recursive := true` equals the one
with `recursive := false`; the flag is accepted and validated but never
consulted, and sanitization always recurses to the input's full structural
depth. -/
theorem claim_c10_recursive_flag_no_effect :
    ∀ (v : JValue) (c : Config) (iv : Bool) (σ : PatState),
    sanitizeValueS v { c with recursive := true } iv σ =
      sanitizeValueS v { c with recursive := false } iv σ := by
  intro v c iv σ
  rw [sanitizeValueS_recursive_indep v c true iv σ,
    sanitizeValueS_recursive_indep v c false iv σ]

end MongoSanitize
